import Mathlib

/-!
Verification of the grenze admission-controlled forwarding gateway
(crates/grenze-server). The core is a leaky-bucket rate limiter executed
as a single atomic Lua script against Redis, and the gateway sequencing
validate-key → limiter → forwarder in `api/proxy.rs`.

Modelling conventions:
- The Lua script's numbers (`tonumber`, float arithmetic) are modelled as
  exact rationals ℚ; timestamps in milliseconds are ℤ, as in the Rust
  source (`as_millis() as i64`).
- Per-key Redis state (the `:fill` and `:ts` fields) is `Option BucketState`:
  `none` for an absent key (both `GET`s return nil and the script's defaults
  apply). TTL/expiry is not part of the claims modelled here.
- HTTP header names are modelled as their canonical lowercase strings, the
  invariant maintained by the `http` crate's `HeaderName`.
-/

namespace Grenze

/-- Per-key bucket state held in the Counter Store: the accumulated fill and
the last-update timestamp in milliseconds (`rl:{key}:fill` and `rl:{key}:ts`). -/
structure BucketState where
  fill : ℚ
  last_update_ms : ℤ
deriving DecidableEq, Repr

/-- One evaluation of the Lua leaky-bucket script (proxy.rs lines 158-192),
for a key whose current store state is `st` (`none` when the key is absent,
in which case `fill` defaults to `0` and `last` to `now_ms`, as by the
`or '0'` / `or now_ms` defaults). Returns the allow decision (`return 1` /
`return 0`) together with the state the script persists (`SET` of both
fields; both branches write `now_ms` into the timestamp field). -/
def luaStep (capacity leak_per_sec : ℚ) (now_ms : ℤ) (st : Option BucketState) :
    Bool × BucketState :=
  let fill0 : ℚ := match st with | some s => s.fill | none => 0
  let last : ℤ := match st with | some s => s.last_update_ms | none => now_ms
  let elapsed_ms : ℤ := if now_ms - last < 0 then 0 else now_ms - last
  let leaked : ℚ := ((elapsed_ms : ℚ) / 1000) * leak_per_sec
  let fill1 : ℚ := fill0 - leaked
  let fill : ℚ := if fill1 < 0 then 0 else fill1
  if fill + 1 > capacity then
    (false, { fill := fill, last_update_ms := now_ms })
  else
    (true, { fill := fill + 1, last_update_ms := now_ms })

/-- The limiter check as the specification words it (spec §4.1 steps 1-4):
`elapsed = max(0, now - last_update_ms)`, `leaked = elapsed/1000 * leak_rate`,
`fill = max(0, fill - leaked)`; deny persisting the decayed fill and `now`
when `fill + 1 > capacity`, otherwise allow persisting `fill + 1` and `now`;
`fill` defaults to `0` and `last_update_ms` to `now` for an absent key.
Written from the spec's words, to be compared against `luaStep`. -/
def checkSpec (capacity leak_rate : ℚ) (now : ℤ) (st : Option BucketState) :
    Bool × BucketState :=
  let fill0 : ℚ := (st.map BucketState.fill).getD 0
  let last : ℤ := (st.map BucketState.last_update_ms).getD now
  let elapsed : ℤ := max 0 (now - last)
  let leaked : ℚ := ((elapsed : ℚ) / 1000) * leak_rate
  let fill : ℚ := max 0 (fill0 - leaked)
  if fill + 1 > capacity then
    (false, { fill := fill, last_update_ms := now })
  else
    (true, { fill := fill + 1, last_update_ms := now })

/-- Run a sequence of limiter checks for one key at the given timestamps,
each check reading the state persisted by the previous one; returns the
list of allow decisions. -/
def runChecks (capacity leak_per_sec : ℚ) (st : Option BucketState) :
    List ℤ → List Bool
  | [] => []
  | t :: ts =>
    let r := luaStep capacity leak_per_sec t st
    r.1 :: runChecks capacity leak_per_sec (some r.2) ts

/-- The tail of `AppState::allow` (proxy.rs lines 196-208): the script
invocation's outcome is mapped to a boolean — `Ok(1)` allows, any other
`Ok` value denies, and any Redis error (`Err(_)`) denies. The error type is
abstract. -/
def allowOfStore {ε : Type} (r : Except ε ℤ) : Bool :=
  match r with
  | .ok 1 => true
  | .ok _ => false
  | .error _ => false

/-- Modelled from the spec: the Counter Store (Redis, which is not part of
src/) "supports conditional/scripted multi-key atomic read-modify-write"
(spec §6) and the check "must be equivalent to a single atomic transaction
per key" (spec §5), so two concurrent checks for the same key execute in
one of the two sequential orders with no interleaving. Both checks are the
same script invocation, so the two serializations coincide; this evaluates
one of them and returns the two decisions. -/
def concurrentPair (capacity leak_per_sec : ℚ) (t : ℤ) (st : Option BucketState) :
    Bool × Bool :=
  let r1 := luaStep capacity leak_per_sec t st
  let r2 := luaStep capacity leak_per_sec t (some r1.2)
  (r1.1, r2.1)

/-- The response-header allow-list of the relay loop (proxy.rs lines 98-103):
a downstream header is passed through iff its name is `content-type`,
`content-length` or `cache-control` (header names are canonically
lowercase in the `http` crate). -/
def allowedRespHeader (name : String) : Bool :=
  name == "content-type" || name == "content-length" || name == "cache-control"

/-- The caller-facing response headers built from the downstream headers
(proxy.rs lines 97-103): only allow-listed entries are inserted. -/
def filterRespHeaders (hs : List (String × String)) : List (String × String) :=
  hs.filter (fun p => allowedRespHeader p.1)

/-- `str::trim` as used on the key (proxy.rs line 37): leading and trailing
whitespace characters are removed. Defined over the character list so that
it evaluates by kernel reduction; `Char.isWhitespace` covers the ASCII
whitespace characters, which is the fragment the claims exercise. -/
def rustTrim (s : String) : String :=
  String.mk (((s.data.dropWhile Char.isWhitespace).reverse.dropWhile
    Char.isWhitespace).reverse)

/-- Observable effects of one gateway call, in order: whether the limiter
(and hence the Counter Store) was consulted, and whether an outbound
downstream HTTP call was attempted. -/
inductive Effect where
  | limiterCheck
  | downstreamCall
deriving DecidableEq, Repr

/-- The caller's request envelope (proxy.rs `ProxyRequest`); only the fields
the modelled control flow inspects are carried, the rest are opaque to the
sequencing logic. -/
structure ProxyRequest where
  key : String
  url : String
  method : String
deriving DecidableEq, Repr

/-- Outcome of the downstream call as seen by the gateway: the send fails
(connect/timeout/transport), or it completes with a status, headers and a
body read that may itself fail. -/
inductive DownstreamOutcome where
  | sendFailed (msg : String)
  | completed (status : ℕ) (headers : List (String × String))
      (bodyRead : Except String (List ℕ))
deriving Repr

/-- The gateway's caller-facing result, one constructor per `return` site of
`proxy` (proxy.rs lines 38-115). -/
inductive ProxyResult where
  | missingKey
  | rateLimited
  | downstreamError (msg : String)
  | downstreamReadError (msg : String)
  | relayed (status : ℕ) (headers : List (String × String)) (body : List ℕ)
deriving DecidableEq, Repr

/-- HTTP status code of each result (400 BAD_REQUEST, 429 TOO_MANY_REQUESTS,
502 BAD_GATEWAY, or the downstream status passed through). -/
def statusOf : ProxyResult → ℕ
  | .missingKey => 400
  | .rateLimited => 429
  | .downstreamError _ => 502
  | .downstreamReadError _ => 502
  | .relayed s _ _ => s

/-- The `error` field of the structured JSON error body, when the result is
an error (proxy.rs lines 39-42, 46-49, 90, 109). -/
def errorCodeOf : ProxyResult → Option String
  | .missingKey => some "missing_key"
  | .rateLimited => some "rate_limited"
  | .downstreamError _ => some "downstream_error"
  | .downstreamReadError _ => some "downstream_read_error"
  | .relayed _ _ _ => none

/-- Whether a status code is a server error (5xx). -/
def is5xx (s : ℕ) : Bool := 500 ≤ s && s ≤ 599

/-- The gateway handler `proxy` (proxy.rs lines 31-116) as a function of the
request, the limiter's decision (`state.allow`) and the downstream outcome;
it also returns the list of effects performed. The key is trimmed and
rejected if empty before the limiter runs; a deny returns 429 before any
downstream call; otherwise exactly one downstream call is attempted and its
result is relayed through the header allow-list. -/
def proxy (req : ProxyRequest) (limiterAllow : Bool)
    (downstream : DownstreamOutcome) : ProxyResult × List Effect :=
  let key := rustTrim req.key
  if key.isEmpty then
    (.missingKey, [])
  else if ¬ limiterAllow then
    (.rateLimited, [.limiterCheck])
  else
    match downstream with
    | .sendFailed msg => (.downstreamError msg, [.limiterCheck, .downstreamCall])
    | .completed status hs bodyRead =>
      match bodyRead with
      | .error msg =>
        (.downstreamReadError msg, [.limiterCheck, .downstreamCall])
      | .ok bytes =>
        (.relayed status (filterRespHeaders hs) bytes,
         [.limiterCheck, .downstreamCall])

/-- The limiter configuration of `AppState` (proxy.rs lines 10-15): `capacity`
is a `u32`, `leak_per_sec` an `f64`, modelled as ℕ and ℚ. -/
structure AppState where
  capacity : ℕ
  leak_per_sec : ℚ
deriving DecidableEq, Repr

/-- The configuration part of `AppState::new(rps, redis_url)` (proxy.rs
lines 140-145): `capacity := rps`, `leak_per_sec := rps as f64`. The HTTP
client and the Redis connection carry no algorithmic content. -/
def AppState.new (rps : ℕ) : AppState :=
  { capacity := rps, leak_per_sec := (rps : ℚ) }

/-- The `rps` argument `main` passes to `AppState::new` (main.rs line 10). -/
def mainRps : ℕ := 1

/-- The decayed fill level a check computes before branching: the stored fill
minus `elapsed/1000 * leak_rate`, clamped at `0` (the let-chain of
`checkSpec` up to the branch). -/
def decayed (leak_rate : ℚ) (now : ℤ) (st : Option BucketState) : ℚ :=
  let fill0 : ℚ := (st.map BucketState.fill).getD 0
  let last : ℤ := (st.map BucketState.last_update_ms).getD now
  let elapsed : ℤ := max 0 (now - last)
  let leaked : ℚ := ((elapsed : ℚ) / 1000) * leak_rate
  max 0 (fill0 - leaked)

lemma ite_lt_zero_eq_max_int (x : ℤ) : (if x < 0 then (0 : ℤ) else x) = max 0 x := by
  rw [max_def]
  split_ifs <;> omega

lemma ite_lt_zero_eq_max_rat (x : ℚ) : (if x < 0 then (0 : ℚ) else x) = max 0 x := by
  rw [max_def]
  split_ifs <;> linarith

/-- The Lua script agrees with the specification's wording of the check. -/
lemma luaStep_spec (c l : ℚ) (n : ℤ) (st : Option BucketState) :
    luaStep c l n st = checkSpec c l n st := by
  cases st with
  | none =>
    simp only [luaStep, checkSpec, Option.map_none', Option.getD_none,
      ite_lt_zero_eq_max_int, ite_lt_zero_eq_max_rat, sub_self]
  | some s =>
    simp only [luaStep, checkSpec, Option.map_some', Option.getD_some,
      ite_lt_zero_eq_max_int, ite_lt_zero_eq_max_rat]

/-- `checkSpec` in terms of the decayed fill. -/
lemma checkSpec_eq (c l : ℚ) (n : ℤ) (st : Option BucketState) :
    checkSpec c l n st =
      if decayed l n st + 1 > c then
        (false, { fill := decayed l n st, last_update_ms := n })
      else
        (true, { fill := decayed l n st + 1, last_update_ms := n }) := rfl

lemma decayed_nonneg (l : ℚ) (n : ℤ) (st : Option BucketState) :
    0 ≤ decayed l n st := le_max_left 0 _

lemma decayed_none (l : ℚ) (n : ℤ) : decayed l n none = 0 := by
  simp [decayed]

lemma decayed_same (l : ℚ) (n : ℤ) (s : BucketState) (hf : 0 ≤ s.fill)
    (h : s.last_update_ms = n) : decayed l n (some s) = s.fill := by
  simp [decayed, h, max_eq_right hf]

lemma decayed_le_fill (l : ℚ) (n : ℤ) (s : BucketState) (hl : 0 ≤ l)
    (hf : 0 ≤ s.fill) : decayed l n (some s) ≤ s.fill := by
  have he : (0 : ℚ) ≤ ((max 0 (n - s.last_update_ms) : ℤ) : ℚ) / 1000 * l := by
    have h0 : (0 : ℚ) ≤ ((max 0 (n - s.last_update_ms) : ℤ) : ℚ) := by
      exact_mod_cast le_max_left 0 (n - s.last_update_ms)
    positivity
  simp only [decayed, Option.map_some', Option.getD_some]
  exact max_le hf (by linarith)

/-- A check on a bucket whose timestamp already equals `now` (no decay). -/
lemma luaStep_same (c l : ℚ) (n : ℤ) (f : ℚ) (hf : 0 ≤ f) :
    luaStep c l n (some { fill := f, last_update_ms := n }) =
      if f + 1 > c then (false, { fill := f, last_update_ms := n })
      else (true, { fill := f + 1, last_update_ms := n }) := by
  rw [luaStep_spec, checkSpec_eq,
    decayed_same l n { fill := f, last_update_ms := n } hf rfl]

/-- Running `m` checks at one fixed timestamp from an integral fill `k`
admits exactly the first `cap - k` of them. -/
lemma runChecks_replicate (cap : ℕ) (l : ℚ) (n : ℤ) (m : ℕ) :
    ∀ k : ℕ,
      runChecks (cap : ℚ) l (some { fill := (k : ℚ), last_update_ms := n })
          (List.replicate m n) =
        List.replicate (min m (cap - k)) true ++
          List.replicate (m - (cap - k)) false := by
  induction m with
  | zero => intro k; simp [runChecks]
  | succ m ih =>
    intro k
    rw [List.replicate_succ]
    simp only [runChecks]
    rw [luaStep_same (cap : ℚ) l n (k : ℚ) (Nat.cast_nonneg k)]
    by_cases hk : (k : ℚ) + 1 > (cap : ℚ)
    · have hk' : cap ≤ k := by
        have : (cap : ℚ) < (k : ℚ) + 1 := hk
        exact_mod_cast Nat.lt_succ_iff.mp (by exact_mod_cast this)
      rw [if_pos hk]
      simp only
      rw [ih k]
      have h1 : cap - k = 0 := by omega
      simp [h1, List.replicate_succ]
    · have hk' : k < cap := by
        have : (k : ℚ) + 1 ≤ (cap : ℚ) := not_lt.mp hk
        have : ((k + 1 : ℕ) : ℚ) ≤ (cap : ℚ) := by push_cast; linarith
        exact_mod_cast this
      rw [if_neg hk]
      simp only
      have hc : ((k : ℚ) + 1) = ((k + 1 : ℕ) : ℚ) := by push_cast; ring
      rw [hc, ih (k + 1)]
      have e1 : min (m + 1) (cap - k) = min m (cap - (k + 1)) + 1 := by omega
      have e2 : (m + 1) - (cap - k) = m - (cap - (k + 1)) := by omega
      rw [e1, e2, List.replicate_succ, List.cons_append]

/-- A first-ever check (absent key) at `now` allows when `1 ≤ capacity` and
persists fill `1` with timestamp `now`. -/
lemma luaStep_fresh (cap : ℕ) (l : ℚ) (n : ℤ) (h : 1 ≤ cap) :
    luaStep (cap : ℚ) l n none =
      (true, { fill := 1, last_update_ms := n }) := by
  rw [luaStep_spec, checkSpec_eq, decayed_none]
  have h1 : ¬ ((0 : ℚ) + 1 > (cap : ℚ)) := by
    have : (1 : ℚ) ≤ (cap : ℚ) := by exact_mod_cast h
    simp only [zero_add, gt_iff_lt, not_lt]
    exact this
  rw [if_neg h1]
  norm_num

/-- Claim C1: for every key, capacity, leak_rate and timestamp `now`, one
limiter check computes `elapsed = max(0, now - last_update_ms)`, decays fill
by `elapsed/1000 * leak_rate` clamped at `0`, and then: if `fill + 1 >
capacity` it persists the decayed fill together with the updated timestamp
`now` and returns deny; otherwise it persists `fill + 1` together with `now`
and returns allow, with `fill` defaulting to `0` and `last_update_ms`
defaulting to `now` for an absent key. The Lua script (`luaStep`) computes
exactly the specification's check (`checkSpec`) on every input. -/
theorem c1_limiter_check_refines_spec (capacity leak_rate : ℚ) (now : ℤ)
    (st : Option BucketState) :
    luaStep capacity leak_rate now st = checkSpec capacity leak_rate now st :=
  luaStep_spec capacity leak_rate now st

/-- Claim C5: for a key with no existing bucket state and any capacity ≥ 1,
`capacity + 1` checks all at the same timestamp yield allow for the first
`capacity` checks and deny for the last. -/
theorem c5_fresh_key_burst (cap : ℕ) (leak : ℚ) (now : ℤ) (h : 1 ≤ cap) :
    runChecks (cap : ℚ) leak none (List.replicate (cap + 1) now) =
      List.replicate cap true ++ [false] := by
  rw [List.replicate_succ]
  simp only [runChecks]
  rw [luaStep_fresh cap leak now h]
  simp only
  have h1 : (1 : ℚ) = ((1 : ℕ) : ℚ) := by norm_num
  rw [h1, runChecks_replicate cap leak now cap 1]
  have e1 : min cap (cap - 1) = cap - 1 := by omega
  have e2 : cap - (cap - 1) = 1 := by omega
  rw [e1, e2]
  have e3 : cap = (cap - 1) + 1 := by omega
  conv_rhs => rw [e3, List.replicate_succ]
  simp

/-- Witness for C5 at `capacity = 2`, `leak_rate = 1`, `now = 0`. -/
theorem c5_fresh_key_burst_witness :
    1 ≤ 2 ∧
    runChecks ((2 : ℕ) : ℚ) 1 none (List.replicate (2 + 1) 0) =
      List.replicate 2 true ++ [false] :=
  ⟨by norm_num, c5_fresh_key_burst 2 1 0 (by norm_num)⟩

/-- Claim C6: with `capacity = 2` and `leak_rate = 2`, a fresh key checked at
timestamps 0, 0, 0, 500ms, 500ms yields allow, allow, deny, allow, deny. -/
theorem c6_scenario_cap2_leak2 :
    runChecks 2 2 none [0, 0, 0, 500, 500] =
      [true, true, false, true, false] := by
  simp [runChecks, luaStep]
  norm_num

/-- Claim C10: `AppState::new(rps, _)` sets `capacity = rps` and
`leak_per_sec = rps`, so the two cannot be set independently; `main` calls it
with `rps = 1`, so the running gateway has capacity 1 and leak rate 1. -/
theorem c10_config_ties_capacity_to_leak :
    (∀ rps : ℕ, (AppState.new rps).capacity = rps ∧
        (AppState.new rps).leak_per_sec = (rps : ℚ) ∧
        (AppState.new rps).leak_per_sec = ((AppState.new rps).capacity : ℚ)) ∧
    (AppState.new mainRps).capacity = 1 ∧
    (AppState.new mainRps).leak_per_sec = 1 := by
  refine ⟨fun rps => ⟨rfl, rfl, rfl⟩, rfl, ?_⟩
  norm_num [AppState.new, mainRps]

/-- Claim C9: two concurrent checks for a key whose bucket is one unit below
capacity (fill `cap - 1` at the check instant) admit exactly one request:
under the spec-modelled atomicity of the Counter Store the two checks
serialize, and every serialization yields one allow and one deny. -/
theorem c9_concurrent_checks_one_admitted (cap leak : ℚ) (t : ℤ)
    (hcap : 1 ≤ cap) :
    concurrentPair cap leak t
        (some { fill := cap - 1, last_update_ms := t }) = (true, false) := by
  have h1 : luaStep cap leak t (some { fill := cap - 1, last_update_ms := t }) =
      (true, { fill := cap - 1 + 1, last_update_ms := t }) := by
    rw [luaStep_same cap leak t (cap - 1) (by linarith)]
    rw [if_neg (by simp)]
  have h2 : (luaStep cap leak t
      (some { fill := cap, last_update_ms := t })).1 = false := by
    rw [luaStep_same cap leak t cap (by linarith)]
    rw [if_pos (by linarith)]
  simp only [concurrentPair, h1]
  simp [h2]

/-- Witness for C9 at `capacity = 2`, `leak_rate = 1`, `t = 0`. -/
theorem c9_concurrent_checks_one_admitted_witness :
    concurrentPair 2 1 0 (some { fill := 2 - 1, last_update_ms := 0 }) =
      (true, false) :=
  c9_concurrent_checks_one_admitted 2 1 0 (by norm_num)

/-- Claim C7 is false as stated: with `capacity = 2`, `leak_rate = 1`, the
third check at `t = 0` is denied; `t' = 2000` ms satisfies
`t' - t ≥ 1/leak_rate` seconds and the check there is allowed, but the
immediately following check at the same `t'` is allowed as well (two units
leaked during the 2-second wait), not denied as the claim requires. -/
theorem c7_counterexample :
    runChecks 2 1 none [0, 0, 0, 2000, 2000] =
      [true, true, false, true, true] := by
  simp [runChecks, luaStep]
  norm_num

/-- Claim C7 amended: after a check denied at time `t` (for leak rate > 0,
capacity ≥ 1, and a stored fill within `[0, capacity]`), a subsequent check
at any `t'` with `t' - t ≥ 1/leak_rate` seconds is allowed; and when the
wait is exactly `1/leak_rate` seconds — so exactly one unit leaks — an
immediately following check at the same `t'` is denied again. (A longer
wait can leak more than one unit, whence the restriction.) -/
theorem c7_amended_monotone_leak (cap leak : ℚ) (t t' : ℤ) (st0 : BucketState)
    (hcap : 1 ≤ cap) (hleak : 0 < leak)
    (hf0 : 0 ≤ st0.fill) (hf1 : st0.fill ≤ cap)
    (hdeny : (luaStep cap leak t (some st0)).1 = false) :
    (1 ≤ ((t' - t : ℤ) : ℚ) / 1000 * leak →
      (luaStep cap leak t' (some (luaStep cap leak t (some st0)).2)).1 = true)
    ∧ (((t' - t : ℤ) : ℚ) / 1000 * leak = 1 →
      (luaStep cap leak t'
          (some (luaStep cap leak t'
            (some (luaStep cap leak t (some st0)).2)).2)).1 = false) := by
  have hstep : luaStep cap leak t (some st0) =
      if decayed leak t (some st0) + 1 > cap then
        (false, { fill := decayed leak t (some st0), last_update_ms := t })
      else
        (true, { fill := decayed leak t (some st0) + 1, last_update_ms := t }) := by
    rw [luaStep_spec, checkSpec_eq]
  have hcond : decayed leak t (some st0) + 1 > cap := by
    by_contra h
    rw [hstep, if_neg h] at hdeny
    simp at hdeny
  have hs1 : (luaStep cap leak t (some st0)).2 =
      { fill := decayed leak t (some st0), last_update_ms := t } := by
    rw [hstep, if_pos hcond]
  have hD0nn : 0 ≤ decayed leak t (some st0) := decayed_nonneg _ _ _
  have hD0le : decayed leak t (some st0) ≤ cap :=
    le_trans (decayed_le_fill leak t st0 hleak.le hf0) hf1
  constructor
  · intro hw
    have htt : (0 : ℚ) ≤ ((t' - t : ℤ) : ℚ) := by
      by_contra h
      push_neg at h
      have : ((t' - t : ℤ) : ℚ) / 1000 * leak < 0 :=
        mul_neg_of_neg_of_pos (div_neg_of_neg_of_pos h (by norm_num)) hleak
      linarith
    have hZ : (0 : ℤ) ≤ t' - t := by exact_mod_cast htt
    have hD1 : decayed leak t'
        (some { fill := decayed leak t (some st0), last_update_ms := t }) =
        max 0 (decayed leak t (some st0) - ((t' - t : ℤ) : ℚ) / 1000 * leak) := by
      simp only [decayed, Option.map_some', Option.getD_some]
      rw [max_eq_right hZ]
    rw [hs1, luaStep_spec, checkSpec_eq]
    have hnot : ¬ (decayed leak t'
        (some { fill := decayed leak t (some st0), last_update_ms := t }) + 1 > cap) := by
      rw [hD1]
      have h2 : decayed leak t (some st0) - ((t' - t : ℤ) : ℚ) / 1000 * leak ≤
          cap - 1 := by linarith
      have h3 : (0 : ℚ) ≤ cap - 1 := by linarith
      have h4 : max 0 (decayed leak t (some st0) -
          ((t' - t : ℤ) : ℚ) / 1000 * leak) ≤ cap - 1 := max_le h3 h2
      push_neg
      linarith
    rw [if_neg hnot]
  · intro hw
    have hw1 : (1 : ℚ) ≤ ((t' - t : ℤ) : ℚ) / 1000 * leak := le_of_eq hw.symm
    have htt : (0 : ℚ) ≤ ((t' - t : ℤ) : ℚ) := by
      by_contra h
      push_neg at h
      have : ((t' - t : ℤ) : ℚ) / 1000 * leak < 0 :=
        mul_neg_of_neg_of_pos (div_neg_of_neg_of_pos h (by norm_num)) hleak
      linarith
    have hZ : (0 : ℤ) ≤ t' - t := by exact_mod_cast htt
    have hD1 : decayed leak t'
        (some { fill := decayed leak t (some st0), last_update_ms := t }) =
        max 0 (decayed leak t (some st0) - 1) := by
      simp only [decayed, Option.map_some', Option.getD_some]
      rw [max_eq_right hZ, hw]
    have hnot : ¬ (decayed leak t'
        (some { fill := decayed leak t (some st0), last_update_ms := t }) + 1 > cap) := by
      rw [hD1]
      have h2 : decayed leak t (some st0) - 1 ≤ cap - 1 := by linarith
      have h3 : (0 : ℚ) ≤ cap - 1 := by linarith
      have h4 : max 0 (decayed leak t (some st0) - 1) ≤ cap - 1 := max_le h3 h2
      push_neg
      linarith
    have hs2 : (luaStep cap leak t'
        (some { fill := decayed leak t (some st0), last_update_ms := t })).2 =
        { fill := decayed leak t'
            (some { fill := decayed leak t (some st0), last_update_ms := t }) + 1,
          last_update_ms := t' } := by
      rw [luaStep_spec, checkSpec_eq, if_neg hnot]
    rw [hs1, hs2]
    have hfnn : 0 ≤ decayed leak t'
        (some { fill := decayed leak t (some st0), last_update_ms := t }) + 1 := by
      have := decayed_nonneg leak t'
        (some { fill := decayed leak t (some st0), last_update_ms := t })
      linarith
    rw [luaStep_same cap leak t' _ hfnn]
    have hge : decayed leak t'
        (some { fill := decayed leak t (some st0), last_update_ms := t }) ≥
        decayed leak t (some st0) - 1 := by
      rw [hD1]
      exact le_max_right _ _
    rw [if_pos (by linarith)]

/-- Witness for the amended C7 at `capacity = 2`, `leak_rate = 1`, a bucket
denied at `t = 0` with fill 2, and `t' = 1000` ms (exactly one second). -/
theorem c7_amended_monotone_leak_witness :
    (luaStep 2 1 1000
        (some (luaStep 2 1 0
          (some { fill := 2, last_update_ms := 0 })).2)).1 = true ∧
    (luaStep 2 1 1000
        (some (luaStep 2 1 1000
          (some (luaStep 2 1 0
            (some { fill := 2, last_update_ms := 0 })).2)).2)).1 = false :=
  ⟨(c7_amended_monotone_leak 2 1 0 1000 { fill := 2, last_update_ms := 0 }
      (by norm_num) (by norm_num) (by norm_num) (by norm_num)
      (by simp [luaStep]; norm_num)).1 (by norm_num),
   (c7_amended_monotone_leak 2 1 0 1000 { fill := 2, last_update_ms := 0 }
      (by norm_num) (by norm_num) (by norm_num) (by norm_num)
      (by simp [luaStep]; norm_num)).2 (by norm_num)⟩

/-- Claim C3: a denied limiter check (with a valid key) yields status 429
with the structured `rate_limited` error, and the Forwarder is never
invoked: no downstream call effect occurs. -/
theorem c3_denied_429_no_forward (req : ProxyRequest) (d : DownstreamOutcome)
    (hkey : (rustTrim req.key).isEmpty = false) :
    proxy req false d = (.rateLimited, [.limiterCheck]) ∧
    statusOf (proxy req false d).1 = 429 ∧
    errorCodeOf (proxy req false d).1 = some "rate_limited" ∧
    Effect.downstreamCall ∉ (proxy req false d).2 := by
  have hp : proxy req false d = (.rateLimited, [.limiterCheck]) := by
    simp [proxy, hkey]
  refine ⟨hp, ?_, ?_, ?_⟩ <;> rw [hp] <;> simp [statusOf, errorCodeOf]

/-- Witness for C3: key "a", downstream outcome irrelevant. -/
theorem c3_denied_429_no_forward_witness :
    proxy { key := "a", url := "u", method := "GET" } false (.sendFailed "x") =
      (.rateLimited, [.limiterCheck]) ∧
    statusOf (proxy { key := "a", url := "u", method := "GET" } false
      (.sendFailed "x")).1 = 429 ∧
    errorCodeOf (proxy { key := "a", url := "u", method := "GET" } false
      (.sendFailed "x")).1 = some "rate_limited" ∧
    Effect.downstreamCall ∉ (proxy { key := "a", url := "u", method := "GET" }
      false (.sendFailed "x")).2 :=
  c3_denied_429_no_forward { key := "a", url := "u", method := "GET" }
    (.sendFailed "x") (by decide)

/-- Claim C2: when the Counter Store call fails for any reason, the limiter
check returns deny rather than raising; the gateway then responds 429 with
the structured `rate_limited` error, never a 5xx caused by the store
failure, and makes no downstream call. -/
theorem c2_store_failure_denies (ε : Type) (e : ε) (req : ProxyRequest)
    (d : DownstreamOutcome) (hkey : (rustTrim req.key).isEmpty = false) :
    allowOfStore (Except.error e : Except ε ℤ) = false ∧
    proxy req (allowOfStore (Except.error e : Except ε ℤ)) d =
      (.rateLimited, [.limiterCheck]) ∧
    statusOf (proxy req (allowOfStore (Except.error e : Except ε ℤ)) d).1 = 429 ∧
    is5xx (statusOf
      (proxy req (allowOfStore (Except.error e : Except ε ℤ)) d).1) = false ∧
    errorCodeOf (proxy req (allowOfStore (Except.error e : Except ε ℤ)) d).1 =
      some "rate_limited" := by
  have ha : allowOfStore (Except.error e : Except ε ℤ) = false := rfl
  have hp : proxy req (allowOfStore (Except.error e : Except ε ℤ)) d =
      (.rateLimited, [.limiterCheck]) := by
    rw [ha]
    simp [proxy, hkey]
  refine ⟨ha, hp, ?_, ?_, ?_⟩ <;> rw [hp] <;> simp [statusOf, errorCodeOf, is5xx]

/-- Witness for C2: a store error (of unit type) with key "a". -/
theorem c2_store_failure_denies_witness :
    allowOfStore (Except.error () : Except Unit ℤ) = false ∧
    proxy { key := "a", url := "u", method := "GET" }
        (allowOfStore (Except.error () : Except Unit ℤ)) (.sendFailed "x") =
      (.rateLimited, [.limiterCheck]) ∧
    statusOf (proxy { key := "a", url := "u", method := "GET" }
        (allowOfStore (Except.error () : Except Unit ℤ)) (.sendFailed "x")).1 = 429 ∧
    is5xx (statusOf (proxy { key := "a", url := "u", method := "GET" }
        (allowOfStore (Except.error () : Except Unit ℤ)) (.sendFailed "x")).1) = false ∧
    errorCodeOf (proxy { key := "a", url := "u", method := "GET" }
        (allowOfStore (Except.error () : Except Unit ℤ)) (.sendFailed "x")).1 =
      some "rate_limited" :=
  c2_store_failure_denies Unit () { key := "a", url := "u", method := "GET" }
    (.sendFailed "x") (by decide)

/-- Claim C4: an empty-after-trimming key is rejected with status 400 and the
structured `missing_key` error, with neither a limiter check (hence no
Counter Store access) nor a downstream call. -/
theorem c4_missing_key_rejected (req : ProxyRequest) (b : Bool)
    (d : DownstreamOutcome) (hkey : (rustTrim req.key).isEmpty = true) :
    proxy req b d = (.missingKey, []) ∧
    statusOf (proxy req b d).1 = 400 ∧
    errorCodeOf (proxy req b d).1 = some "missing_key" ∧
    Effect.limiterCheck ∉ (proxy req b d).2 ∧
    Effect.downstreamCall ∉ (proxy req b d).2 := by
  have hp : proxy req b d = (.missingKey, []) := by
    simp [proxy, hkey]
  refine ⟨hp, ?_, ?_, ?_, ?_⟩ <;> rw [hp] <;> simp [statusOf, errorCodeOf]

/-- Witness for C4: a whitespace-only key. -/
theorem c4_missing_key_rejected_witness :
    proxy { key := "  ", url := "u", method := "GET" } true (.sendFailed "x") =
      (.missingKey, []) ∧
    statusOf (proxy { key := "  ", url := "u", method := "GET" } true
      (.sendFailed "x")).1 = 400 ∧
    errorCodeOf (proxy { key := "  ", url := "u", method := "GET" } true
      (.sendFailed "x")).1 = some "missing_key" ∧
    Effect.limiterCheck ∉ (proxy { key := "  ", url := "u", method := "GET" }
      true (.sendFailed "x")).2 ∧
    Effect.downstreamCall ∉ (proxy { key := "  ", url := "u", method := "GET" }
      true (.sendFailed "x")).2 :=
  c4_missing_key_rejected { key := "  ", url := "u", method := "GET" } true
    (.sendFailed "x") (by decide)

/-- Claim C8: a completed downstream response is relayed through the fixed
header allow-list: every relayed header is one of content-type,
content-length or cache-control, and `x-internal-debug` is dropped for any
value. -/
theorem c8_response_header_allowlist (req : ProxyRequest) (status : ℕ)
    (hs : List (String × String)) (bytes : List ℕ)
    (hkey : (rustTrim req.key).isEmpty = false) :
    (proxy req true (.completed status hs (.ok bytes))).1 =
      .relayed status (filterRespHeaders hs) bytes ∧
    (∀ p ∈ filterRespHeaders hs,
      p.1 = "content-type" ∨ p.1 = "content-length" ∨ p.1 = "cache-control") ∧
    (∀ v : String, ("x-internal-debug", v) ∉ filterRespHeaders hs) := by
  refine ⟨by simp [proxy, hkey], ?_, ?_⟩
  · intro p hp
    simp only [filterRespHeaders, allowedRespHeader, List.mem_filter,
      Bool.or_eq_true, beq_iff_eq] at hp
    tauto
  · intro v hv
    have h : allowedRespHeader "x-internal-debug" = true :=
      (List.mem_filter.mp hv).2
    exact absurd h (by decide)

/-- Witness for C8: a downstream response carrying `x-internal-debug` and
`content-type`; the debug header is not relayed. -/
theorem c8_response_header_allowlist_witness :
    (proxy { key := "a", url := "u", method := "GET" } true
        (.completed 200 [("x-internal-debug", "1"), ("content-type", "text/plain")]
          (.ok []))).1 =
      .relayed 200
        (filterRespHeaders
          [("x-internal-debug", "1"), ("content-type", "text/plain")]) [] ∧
    ("x-internal-debug", "1") ∉ filterRespHeaders
        [("x-internal-debug", "1"), ("content-type", "text/plain")] :=
  ⟨(c8_response_header_allowlist { key := "a", url := "u", method := "GET" } 200
      [("x-internal-debug", "1"), ("content-type", "text/plain")] [] (by decide)).1,
   (c8_response_header_allowlist { key := "a", url := "u", method := "GET" } 200
      [("x-internal-debug", "1"), ("content-type", "text/plain")] [] (by decide)).2.2
    "1"⟩

end Grenze
